import Mathlib

/-!
Verification of the Hedera Counter DApp core.

Part 1 embeds the on-chain `Counter` contract
(`smart-contract/contracts/Counter.sol`, Solidity 0.8.19): its state,
custom errors, events, the eight external mutating operations, and the
reachable-state relation generated by deployment followed by call
sequences.  Solidity 0.8 checked `uint256` arithmetic is modelled over
`Nat` with an explicit `2 ^ 256` overflow test; a reverted call leaves
the state unchanged.

Part 2 embeds the client-side orchestration layer
(`frontend/src/hooks/useContract.ts` and
`frontend/src/hooks/useTransactions.ts`): the cached contract snapshot,
the refresh completion handler, the optimistic cache update performed on
transaction acknowledgment, the client-side amount validation, and the
bounded transaction history.
-/

namespace Counter

/-- Modulus of Solidity `uint256` values. -/
def UINT256_MOD : Nat := 2 ^ 256

/-- `MAX_COUNT` constant of `Counter.sol`. -/
def MAX_COUNT : Nat := 1000000

/-- `MIN_COUNT` constant of `Counter.sol`. -/
def MIN_COUNT : Nat := 0

/-- On-chain state of the `Counter` contract: the private state variables
`_count`, `_owner` and `_paused`.  Addresses are modelled as naturals,
with `0` standing for `address(0)`. -/
structure CounterState where
  count : Nat
  owner : Nat
  paused : Bool
  deriving DecidableEq, Repr

/-- The custom errors declared in `Counter.sol`, plus `Panic` for the
implicit Solidity 0.8 checked-arithmetic revert (EVM `Panic(0x11)`),
which is a distinct revert reason from every custom error. -/
inductive ContractError where
  | CounterPaused
  | MaxCountExceeded
  | MinCountExceeded
  | OnlyOwner
  | InvalidAddress
  | Panic
  deriving DecidableEq, Repr

/-- The events declared in `Counter.sol`. -/
inductive ContractEvent where
  | CountIncremented (newCount caller : Nat)
  | CountDecremented (newCount caller : Nat)
  | CountReset (caller : Nat)
  | OwnershipTransferred (previousOwner newOwner : Nat)
  | ContractPaused (caller : Nat)
  | ContractUnpaused (caller : Nat)
  deriving DecidableEq, Repr

/-- Solidity 0.8 checked `uint256` addition: reverts with a panic when the
exact sum does not fit in 256 bits, otherwise returns the exact sum. -/
def checkedAdd (a b : Nat) : Except ContractError Nat :=
  if a + b < UINT256_MOD then .ok (a + b) else .error .Panic

/-- The constructor of `Counter.sol`: stores the deployer as `_owner`,
stores `initialCount` as `_count` with no bound check, clears `_paused`,
and emits `OwnershipTransferred(address(0), msg.sender)`. -/
def deploy (deployer initialCount : Nat) : CounterState × ContractEvent :=
  ({ count := initialCount, owner := deployer, paused := false },
   .OwnershipTransferred 0 deployer)

/-- `increment()`: `whenNotPaused`; reverts with `MaxCountExceeded` when
`_count >= MAX_COUNT`, else adds 1 and emits `CountIncremented`. -/
def increment (caller : Nat) (s : CounterState) :
    Except ContractError (CounterState × ContractEvent) :=
  if s.paused then .error .CounterPaused
  else if s.count ≥ MAX_COUNT then .error .MaxCountExceeded
  else .ok ({ s with count := s.count + 1 }, .CountIncremented (s.count + 1) caller)

/-- `decrement()`: `whenNotPaused`; reverts with `MinCountExceeded` when
`_count <= MIN_COUNT`, else subtracts 1 and emits `CountDecremented`. -/
def decrement (caller : Nat) (s : CounterState) :
    Except ContractError (CounterState × ContractEvent) :=
  if s.paused then .error .CounterPaused
  else if s.count ≤ MIN_COUNT then .error .MinCountExceeded
  else .ok ({ s with count := s.count - 1 }, .CountDecremented (s.count - 1) caller)

/-- `incrementBy(amount)`: `whenNotPaused`; evaluates the checked sum
`_count + amount` (a 256-bit overflow reverts with a panic before the
bound test), reverts with `MaxCountExceeded` when the sum exceeds
`MAX_COUNT`, else stores the sum and emits `CountIncremented`. -/
def incrementBy (caller amount : Nat) (s : CounterState) :
    Except ContractError (CounterState × ContractEvent) :=
  if s.paused then .error .CounterPaused
  else
    match checkedAdd s.count amount with
    | .error e => .error e
    | .ok sum =>
      if sum > MAX_COUNT then .error .MaxCountExceeded
      else .ok ({ s with count := sum }, .CountIncremented sum caller)

/-- `decrementBy(amount)`: `whenNotPaused`; reverts with
`MinCountExceeded` when `_count < amount` (the short-circuit keeps the
subtraction from underflowing) or when `_count - amount < MIN_COUNT`,
else stores the difference and emits `CountDecremented`. -/
def decrementBy (caller amount : Nat) (s : CounterState) :
    Except ContractError (CounterState × ContractEvent) :=
  if s.paused then .error .CounterPaused
  else if s.count < amount then .error .MinCountExceeded
  else if s.count - amount < MIN_COUNT then .error .MinCountExceeded
  else .ok ({ s with count := s.count - amount }, .CountDecremented (s.count - amount) caller)

/-- `reset()`: `onlyOwner`; sets `_count` to 0 and emits `CountReset`. -/
def reset (caller : Nat) (s : CounterState) :
    Except ContractError (CounterState × ContractEvent) :=
  if caller ≠ s.owner then .error .OnlyOwner
  else .ok ({ s with count := 0 }, .CountReset caller)

/-- `pause()`: `onlyOwner`; sets `_paused` and emits `ContractPaused`. -/
def pause (caller : Nat) (s : CounterState) :
    Except ContractError (CounterState × ContractEvent) :=
  if caller ≠ s.owner then .error .OnlyOwner
  else .ok ({ s with paused := true }, .ContractPaused caller)

/-- `unpause()`: `onlyOwner`; clears `_paused` and emits
`ContractUnpaused`. -/
def unpause (caller : Nat) (s : CounterState) :
    Except ContractError (CounterState × ContractEvent) :=
  if caller ≠ s.owner then .error .OnlyOwner
  else .ok ({ s with paused := false }, .ContractUnpaused caller)

/-- `transferOwnership(newOwner)`: `onlyOwner`; reverts with
`InvalidAddress` when `newOwner` is the zero address, else replaces
`_owner` and emits `OwnershipTransferred`. -/
def transferOwnership (caller newOwner : Nat) (s : CounterState) :
    Except ContractError (CounterState × ContractEvent) :=
  if caller ≠ s.owner then .error .OnlyOwner
  else if newOwner = 0 then .error .InvalidAddress
  else .ok ({ s with owner := newOwner }, .OwnershipTransferred s.owner newOwner)

/-- One external mutating call, tagged with its caller. -/
inductive Op where
  | increment (caller : Nat)
  | decrement (caller : Nat)
  | incrementBy (caller amount : Nat)
  | decrementBy (caller amount : Nat)
  | reset (caller : Nat)
  | pause (caller : Nat)
  | unpause (caller : Nat)
  | transferOwnership (caller newOwner : Nat)
  deriving DecidableEq, Repr

/-- Dispatch an external call on a state. -/
def step (op : Op) (s : CounterState) :
    Except ContractError (CounterState × ContractEvent) :=
  match op with
  | .increment c => increment c s
  | .decrement c => decrement c s
  | .incrementBy c a => incrementBy c a s
  | .decrementBy c a => decrementBy c a s
  | .reset c => reset c s
  | .pause c => pause c s
  | .unpause c => unpause c s
  | .transferOwnership c n => transferOwnership c n s

/-- EVM call semantics: a successful call commits the new state, a
reverted call leaves the state unchanged. -/
def applyOp (s : CounterState) (op : Op) : CounterState :=
  match step op s with
  | .ok (t, _) => t
  | .error _ => s

/-- Run a sequence of external calls from a state. -/
def run (s : CounterState) (ops : List Op) : CounterState :=
  ops.foldl applyOp s

/-- A state is reachable when it is produced from deployment with some
deployer and some `uint256` initial count by some sequence of external
calls. -/
def Reachable (s : CounterState) : Prop :=
  ∃ deployer initialCount ops, initialCount < UINT256_MOD ∧
    s = run (deploy deployer initialCount).1 ops

end Counter

namespace Frontend

/-- `VALIDATION.MIN_INCREMENT_AMOUNT` from `frontend/src/utils/config.ts`. -/
def MIN_INCREMENT_AMOUNT : Int := 1

/-- `VALIDATION.MAX_INCREMENT_AMOUNT` from `frontend/src/utils/config.ts`. -/
def MAX_INCREMENT_AMOUNT : Int := 1000

/-- `VALIDATION.MIN_DECREMENT_AMOUNT` from `frontend/src/utils/config.ts`. -/
def MIN_DECREMENT_AMOUNT : Int := 1

/-- `VALIDATION.MAX_DECREMENT_AMOUNT` from `frontend/src/utils/config.ts`. -/
def MAX_DECREMENT_AMOUNT : Int := 1000

/-- `UI_CONFIG.MAX_TRANSACTIONS_HISTORY` from `frontend/src/utils/config.ts`. -/
def MAX_TRANSACTIONS_HISTORY : Nat := 50

/-- The `ContractInfo` interface of `frontend/src/types/index.ts`: the
cached snapshot of ledger state held by `useContract`.  JavaScript
numbers are modelled as `Int`; every value the hooks produce is an
integer far below 2^53, where JavaScript arithmetic is exact. -/
structure ContractInfo where
  contractId : String
  count : Int
  owner : String
  isPaused : Bool
  maxCount : Int
  minCount : Int
  deriving DecidableEq, Repr

/-- Outcome of one read path inside `refresh` (`useContract.ts`): either
a fully assembled `contractData` object, or failure (covering a thrown
error, a non-ok mirror-node response, or an unfulfilled count read —
every branch of the source that leaves `contractData` null). -/
inductive ReadOutcome where
  | success (info : ContractInfo)
  | failure
  deriving DecidableEq, Repr

/-- The fallback `contractData` object built by `refresh` when both the
MetaMask read and the Hedera-SDK read fail: count 0, the deployer
account as owner, not paused, the fixed bounds. -/
def fallbackContractData (contractId : String) : ContractInfo :=
  { contractId := contractId, count := 0, owner := "0.0.6255971",
    isPaused := false, maxCount := 1000000, minCount := 0 }

/-- The `contractData` value one run of `refresh` ends with: the MetaMask
read if it produced data, else the Hedera-SDK read if it produced data,
else the fallback object. -/
def refreshResult (contractId : String) (metamask hedera : ReadOutcome) :
    ContractInfo :=
  match metamask with
  | .success info => info
  | .failure =>
    match hedera with
    | .success info => info
    | .failure => fallbackContractData contractId

/-- Completion of one `refresh` run: `setContract(contractData)` replaces
the cached snapshot unconditionally.  The previous cache contents are
taken as an argument to reflect that the handler has access to them yet
ignores them: no sequence number or staleness comparison exists in the
source. -/
def applyRefresh (cache : Option ContractInfo) (contractId : String)
    (metamask hedera : ReadOutcome) : Option ContractInfo :=
  some (refreshResult contractId metamask hedera)

/-- Resolve a list of completed `refresh` runs against the cache in their
arrival (resolution) order, each via `applyRefresh`. -/
def resolveRefreshes (cache : Option ContractInfo) (contractId : String)
    (arrivals : List (ReadOutcome × ReadOutcome)) : Option ContractInfo :=
  arrivals.foldl (fun c mh => applyRefresh c contractId mh.1 mh.2) cache

/-- The optimistic cache update in the success branch of
`executeContractFunction` (`useContract.ts`): increments or decrements
the cached `count` by 1 for the unit operations, and by `result.amount`
for the by-amount operations; the JavaScript truthiness test on
`result.amount` is modelled as the amount being present and nonzero. -/
def applyOptimistic (functionName : String) (amount : Option Int)
    (c : ContractInfo) : ContractInfo :=
  if functionName = "increment" then { c with count := c.count + 1 }
  else if functionName = "decrement" then { c with count := c.count - 1 }
  else if functionName = "incrementBy" then
    match amount with
    | some a => if a ≠ 0 then { c with count := c.count + a } else c
    | none => c
  else if functionName = "decrementBy" then
    match amount with
    | some a => if a ≠ 0 then { c with count := c.count - a } else c
    | none => c
  else c

/-- The amount validation of the `incrementBy` hook: the hook rejects the
request before any submission when
`amount < VALIDATION.MIN_INCREMENT_AMOUNT || amount > VALIDATION.MAX_INCREMENT_AMOUNT`;
`true` means the submission proceeds. -/
def incrementByAmountOk (amount : Int) : Bool :=
  if amount < MIN_INCREMENT_AMOUNT ∨ amount > MAX_INCREMENT_AMOUNT then false
  else true

/-- The amount validation of the `decrementBy` hook, symmetric to
`incrementByAmountOk`. -/
def decrementByAmountOk (amount : Int) : Bool :=
  if amount < MIN_DECREMENT_AMOUNT ∨ amount > MAX_DECREMENT_AMOUNT then false
  else true

/-- The `Transaction` interface of `frontend/src/types/index.ts`. -/
structure Transaction where
  id : String
  type : String
  status : String
  hash : Option String
  timestamp : Int
  amount : Option Int
  error : Option String
  deriving DecidableEq, Repr

/-- `addTransaction` (`useTransactions.ts`): prepend the new record and
keep only the first `UI_CONFIG.MAX_TRANSACTIONS_HISTORY` records. -/
def addTransaction (prev : List Transaction) (newTx : Transaction) :
    List Transaction :=
  (newTx :: prev).take MAX_TRANSACTIONS_HISTORY

/-- `updateTransaction` (`useTransactions.ts`): map over the history,
replacing each record whose `id` matches by its merge with the updates
(`{ ...tx, ...updates }`, abstracted as the function `merge`) and keeping
every other record as is. -/
def updateTransaction (txs : List Transaction) (id : String)
    (merge : Transaction → Transaction) : List Transaction :=
  txs.map fun tx => if tx.id = id then merge tx else tx

/-- Newest-first order on history records: each record's `timestamp` is
at least that of every record after it. -/
def NewestFirst (txs : List Transaction) : Prop :=
  txs.Pairwise fun a b => b.timestamp ≤ a.timestamp

end Frontend

namespace Counter

/-- A reverted call leaves the contract state unchanged. -/
theorem applyOp_of_error {s : CounterState} {op : Op} {e : ContractError}
    (h : step op s = .error e) : applyOp s op = s := by
  simp [applyOp, h]

/-- A successful external call never raises the count above `MAX_COUNT`. -/
theorem step_ok_count_le {s t : CounterState} {ev : ContractEvent} {op : Op}
    (h : s.count ≤ MAX_COUNT) (hs : Except.ok (t, ev) = step op s) :
    t.count ≤ MAX_COUNT := by
  rcases op with c | c | ⟨c, a⟩ | ⟨c, a⟩ | c | c | c | ⟨c, n⟩ <;>
    simp only [step, increment, decrement, incrementBy, decrementBy,
      reset, pause, unpause, transferOwnership, checkedAdd] at hs <;>
    repeat' split at hs
  all_goals simp_all
  all_goals omega

/-- A single external call never raises the count above `MAX_COUNT`. -/
theorem applyOp_count_le {s : CounterState} (op : Op) (h : s.count ≤ MAX_COUNT) :
    (applyOp s op).count ≤ MAX_COUNT := by
  unfold applyOp
  cases hs : step op s with
  | error e => exact h
  | ok p =>
    obtain ⟨t, ev⟩ := p
    exact step_ok_count_le h hs.symm

/-- A call sequence never raises the count above `MAX_COUNT`. -/
theorem run_count_le {s : CounterState} (ops : List Op) (h : s.count ≤ MAX_COUNT) :
    (run s ops).count ≤ MAX_COUNT := by
  induction ops generalizing s with
  | nil => exact h
  | cons op ops ih => exact ih (applyOp_count_le op h)

end Counter

namespace Counter

/-- C1 is false as stated: the constructor stores an arbitrary initial
count with no bound check, so deploying with initialCount = 1000001
yields a reachable state whose count exceeds MAX_COUNT. -/
theorem C1_invariant_counterexample :
    ∃ s : CounterState,
      Reachable s ∧ ¬ (MIN_COUNT ≤ s.count ∧ s.count ≤ MAX_COUNT) := by
  refine ⟨(deploy 1 1000001).1, ⟨1, 1000001, [], ?_, rfl⟩, ?_⟩
  · norm_num [UINT256_MOD]
  · decide

/-- C1 (amended): for every state reachable from a deployment whose
initial count is at most MAX_COUNT, by any sequence of the defined
operations, the counter satisfies MIN_COUNT ≤ count ≤ MAX_COUNT. -/
theorem C1_invariant_amended (deployer initialCount : Nat) (ops : List Op)
    (h : initialCount ≤ MAX_COUNT) :
    MIN_COUNT ≤ (run (deploy deployer initialCount).1 ops).count ∧
    (run (deploy deployer initialCount).1 ops).count ≤ MAX_COUNT :=
  ⟨Nat.zero_le _, run_count_le ops h⟩

/-- Witness for C1 (amended) at deployer 1, initial count 5, and the call
sequence [increment by caller 2, reset by caller 1]. -/
theorem C1_invariant_amended_witness :
    MIN_COUNT ≤ (run (deploy 1 5).1 [Op.increment 2, Op.reset 1]).count ∧
    (run (deploy 1 5).1 [Op.increment 2, Op.reset 1]).count ≤ MAX_COUNT :=
  C1_invariant_amended 1 5 [Op.increment 2, Op.reset 1] (by decide)

/-- C2 is false as stated: at count = 1 (not paused) with
amount = 2^256 - 1 the exact sum exceeds MAX_COUNT, yet incrementBy
reverts with the Solidity checked-arithmetic panic, not with
MaxCountExceeded. -/
theorem C2_incrementBy_counterexample :
    MAX_COUNT < 1 + (UINT256_MOD - 1) ∧
    incrementBy 0 (UINT256_MOD - 1) { count := 1, owner := 7, paused := false } =
      .error .Panic ∧
    incrementBy 0 (UINT256_MOD - 1) { count := 1, owner := 7, paused := false } ≠
      .error .MaxCountExceeded := by
  have hres : incrementBy 0 (UINT256_MOD - 1)
      { count := 1, owner := 7, paused := false } = .error .Panic := rfl
  refine ⟨by norm_num [MAX_COUNT, UINT256_MOD], hres, ?_⟩
  rw [hres]
  intro hc
  exact ContractError.noConfusion (Except.error.inj hc)

/-- C2 (amended): with paused = false, incrementBy(amount) fails exactly
when the exact sum count + amount exceeds MAX_COUNT — with
MaxCountExceeded when the sum fits in 256 bits and with the
checked-arithmetic panic when it does not — and otherwise stores
count + amount; decrementBy(amount) fails with MinCountExceeded exactly
when amount > count and otherwise stores count - amount; every failing
call is atomic, leaving the state unchanged. -/
theorem C2_byAmount_semantics (s : CounterState) (caller amount : Nat)
    (hp : s.paused = false) :
    (s.count + amount ≤ MAX_COUNT →
      incrementBy caller amount s =
        .ok ({ s with count := s.count + amount },
             .CountIncremented (s.count + amount) caller)) ∧
    (MAX_COUNT < s.count + amount → s.count + amount < UINT256_MOD →
      incrementBy caller amount s = .error .MaxCountExceeded) ∧
    (UINT256_MOD ≤ s.count + amount →
      incrementBy caller amount s = .error .Panic) ∧
    (∀ e, incrementBy caller amount s = .error e →
      applyOp s (.incrementBy caller amount) = s) ∧
    (amount ≤ s.count →
      decrementBy caller amount s =
        .ok ({ s with count := s.count - amount },
             .CountDecremented (s.count - amount) caller)) ∧
    (s.count < amount → decrementBy caller amount s = .error .MinCountExceeded) ∧
    (∀ e, decrementBy caller amount s = .error e →
      applyOp s (.decrementBy caller amount) = s) := by
  have hM : MAX_COUNT < UINT256_MOD := by norm_num [MAX_COUNT, UINT256_MOD]
  refine ⟨?_, ?_, ?_, ?_, ?_, ?_, ?_⟩
  · intro hle
    have h2 : s.count + amount < UINT256_MOD := by omega
    have h3 : ¬ MAX_COUNT < s.count + amount := by omega
    simp [incrementBy, checkedAdd, hp, h2, h3]
  · intro h3 h2
    simp [incrementBy, checkedAdd, hp, h2, h3]
  · intro hge
    have h2 : ¬ s.count + amount < UINT256_MOD := by omega
    simp [incrementBy, checkedAdd, hp, h2]
  · intro e he
    simp [applyOp, step, he]
  · intro hle
    have h1 : ¬ s.count < amount := by omega
    have h2 : ¬ s.count - amount < MIN_COUNT := by simp [MIN_COUNT]
    simp [decrementBy, hp, h1, h2]
  · intro hlt
    simp [decrementBy, hp, hlt]
  · intro e he
    simp [applyOp, step, he]

/-- Witness for C2 (amended): from count 10 (not paused), incrementBy 5
succeeds and stores 15. -/
theorem C2_byAmount_semantics_witness :
    incrementBy 9 5 { count := 10, owner := 7, paused := false } =
      .ok ({ count := 15, owner := 7, paused := false },
           .CountIncremented 15 9) :=
  (C2_byAmount_semantics { count := 10, owner := 7, paused := false } 9 5 rfl).1
    (by decide)

/-- C3: while paused, all four counting operations revert with the
CounterPaused error regardless of amounts or bound status, and leave the
state — in particular the count — unchanged. -/
theorem C3_paused_blocks_counting (s : CounterState) (caller amount : Nat)
    (hp : s.paused = true) :
    increment caller s = .error .CounterPaused ∧
    decrement caller s = .error .CounterPaused ∧
    incrementBy caller amount s = .error .CounterPaused ∧
    decrementBy caller amount s = .error .CounterPaused ∧
    applyOp s (.increment caller) = s ∧
    applyOp s (.decrement caller) = s ∧
    applyOp s (.incrementBy caller amount) = s ∧
    applyOp s (.decrementBy caller amount) = s := by
  simp [increment, decrement, incrementBy, decrementBy, applyOp, step, hp]

/-- Witness for C3 at a paused state with count 999999, caller 4,
amount 3. -/
theorem C3_paused_blocks_counting_witness :
    increment 4 { count := 999999, owner := 7, paused := true } =
      .error .CounterPaused :=
  (C3_paused_blocks_counting { count := 999999, owner := 7, paused := true }
    4 3 rfl).1

/-- C4: every caller other than the current owner fails with the
OnlyOwner error (the spec's NotOwner) on reset, pause, unpause and
transferOwnership, leaving the entire state unchanged; called by the
owner, reset stores count 0, pause stores paused = true, and unpause
stores paused = false. -/
theorem C4_owner_gate (s : CounterState) (caller newOwner : Nat) :
    (caller ≠ s.owner →
      reset caller s = .error .OnlyOwner ∧
      pause caller s = .error .OnlyOwner ∧
      unpause caller s = .error .OnlyOwner ∧
      transferOwnership caller newOwner s = .error .OnlyOwner ∧
      applyOp s (.reset caller) = s ∧
      applyOp s (.pause caller) = s ∧
      applyOp s (.unpause caller) = s ∧
      applyOp s (.transferOwnership caller newOwner) = s) ∧
    (reset s.owner s = .ok ({ s with count := 0 }, .CountReset s.owner) ∧
     pause s.owner s =
       .ok ({ s with paused := true }, .ContractPaused s.owner) ∧
     unpause s.owner s =
       .ok ({ s with paused := false }, .ContractUnpaused s.owner)) := by
  constructor
  · intro hne
    simp [reset, pause, unpause, transferOwnership, applyOp, step, hne]
  · simp [reset, pause, unpause]

/-- Witness for C4: the non-owner caller 3 is rejected, and the owner's
reset stores 0. -/
theorem C4_owner_gate_witness :
    reset 3 { count := 5, owner := 7, paused := false } = .error .OnlyOwner ∧
    reset 7 { count := 5, owner := 7, paused := false } =
      .ok ({ count := 0, owner := 7, paused := false }, .CountReset 7) :=
  ⟨((C4_owner_gate { count := 5, owner := 7, paused := false } 3 9).1
      (by decide)).1,
   (C4_owner_gate { count := 5, owner := 7, paused := false } 3 9).2.1⟩

/-- C9: the paused flag does not gate the owner-only operations — in any
paused state the owner's reset, pause, unpause, and transferOwnership to
a nonzero address all succeed; in particular reset stores count 0 while
the contract is paused. -/
theorem C9_owner_ops_while_paused (s : CounterState) (newOwner : Nat)
    (_hp : s.paused = true) (hn : newOwner ≠ 0) :
    reset s.owner s = .ok ({ s with count := 0 }, .CountReset s.owner) ∧
    pause s.owner s =
      .ok ({ s with paused := true }, .ContractPaused s.owner) ∧
    unpause s.owner s =
      .ok ({ s with paused := false }, .ContractUnpaused s.owner) ∧
    transferOwnership s.owner newOwner s =
      .ok ({ s with owner := newOwner },
           .OwnershipTransferred s.owner newOwner) := by
  simp [reset, pause, unpause, transferOwnership, hn]

/-- Witness for C9: reset by the owner succeeds while paused. -/
theorem C9_owner_ops_while_paused_witness :
    reset 7 { count := 5, owner := 7, paused := true } =
      .ok ({ count := 0, owner := 7, paused := true }, .CountReset 7) :=
  (C9_owner_ops_while_paused { count := 5, owner := 7, paused := true } 9
    rfl (by decide)).1

/-- C10 is false as stated: in the non-paused state with count = 1000001
(reachable, since the constructor stores the initial count unchecked),
incrementBy(0) reverts with MaxCountExceeded instead of succeeding. -/
theorem C10_zero_delta_counterexample :
    ({ count := 1000001, owner := 7, paused := false } : CounterState).paused
      = false ∧
    incrementBy 3 0 { count := 1000001, owner := 7, paused := false } =
      .error .MaxCountExceeded := by
  exact ⟨rfl, rfl⟩

/-- C10 (amended): in every non-paused state whose count is at most
MAX_COUNT, the ledger accepts a zero delta: incrementBy(0) and
decrementBy(0) both succeed, leave the state unchanged, and emit a
CountIncremented / CountDecremented record carrying the unchanged count
— while the client-side validation layer rejects the amount 0 before
submission. -/
theorem C10_zero_delta_accepted (s : CounterState) (caller : Nat)
    (hp : s.paused = false) (hc : s.count ≤ MAX_COUNT) :
    incrementBy caller 0 s = .ok (s, .CountIncremented s.count caller) ∧
    decrementBy caller 0 s = .ok (s, .CountDecremented s.count caller) ∧
    Frontend.incrementByAmountOk 0 = false ∧
    Frontend.decrementByAmountOk 0 = false := by
  obtain ⟨c, o, p⟩ := s
  change p = false at hp
  change c ≤ MAX_COUNT at hc
  subst hp
  have hM : MAX_COUNT < UINT256_MOD := by norm_num [MAX_COUNT, UINT256_MOD]
  have h2 : c < UINT256_MOD := by omega
  have h3 : ¬ MAX_COUNT < c := by omega
  refine ⟨?_, ?_, rfl, rfl⟩
  · simp [incrementBy, checkedAdd, h2, h3]
  · simp [decrementBy, MIN_COUNT]

/-- Witness for C10 (amended) at count 10, caller 4. -/
theorem C10_zero_delta_accepted_witness :
    incrementBy 4 0 { count := 10, owner := 7, paused := false } =
      .ok ({ count := 10, owner := 7, paused := false },
           .CountIncremented 10 4) :=
  (C10_zero_delta_accepted { count := 10, owner := 7, paused := false } 4
    rfl (by decide)).1

end Counter

namespace Frontend

/-- C5 is false as stated: the cache carries no refresh sequence — when
the refresh initiated first (reading count 3, stale) resolves after the
refresh initiated second (reading count 7) has already been applied, its
data replaces the newer snapshot. -/
theorem C5_stale_refresh_counterexample :
    resolveRefreshes none "0.0.6285476"
        [(.success { contractId := "0.0.6285476", count := 7,
                     owner := "0.0.6255971", isPaused := false,
                     maxCount := 1000000, minCount := 0 }, .failure),
         (.success { contractId := "0.0.6285476", count := 3,
                     owner := "0.0.6255971", isPaused := false,
                     maxCount := 1000000, minCount := 0 }, .failure)] =
      some { contractId := "0.0.6285476", count := 3,
             owner := "0.0.6255971", isPaused := false,
             maxCount := 1000000, minCount := 0 } ∧
    ({ contractId := "0.0.6285476", count := 3, owner := "0.0.6255971",
       isPaused := false, maxCount := 1000000, minCount := 0 } : ContractInfo) ≠
      { contractId := "0.0.6285476", count := 7, owner := "0.0.6255971",
        isPaused := false, maxCount := 1000000, minCount := 0 } := by
  refine ⟨rfl, ?_⟩
  intro hc
  simp at hc

/-- C5 (amended): no refreshSequence exists and no stale read is
discarded; each resolving refresh replaces the cached snapshot with its
own result regardless of the prior cache contents, so after any sequence
of resolutions the cache holds the result of the refresh that resolved
last (last-arrival-wins), even when that refresh read older data. -/
theorem C5_last_arrival_wins (cache : Option ContractInfo) (cid : String)
    (arrivals : List (ReadOutcome × ReadOutcome)) (m h : ReadOutcome) :
    resolveRefreshes cache cid (arrivals ++ [(m, h)]) =
      some (refreshResult cid m h) := by
  simp [resolveRefreshes, applyRefresh, List.foldl_append]

/-- C6 is false as stated: a refresh in which every read fails does not
retain the previous snapshot — it replaces a cached count of 42 with the
fallback object whose count is 0. -/
theorem C6_failed_refresh_counterexample :
    applyRefresh
        (some { contractId := "0.0.6285476", count := 42,
                owner := "0.0.6255971", isPaused := false,
                maxCount := 1000000, minCount := 0 })
        "0.0.6285476" .failure .failure ≠
      some { contractId := "0.0.6285476", count := 42,
             owner := "0.0.6255971", isPaused := false,
             maxCount := 1000000, minCount := 0 } := by
  intro hc
  simp [applyRefresh, refreshResult, fallbackContractData] at hc

/-- C6 (amended): on a refresh in which all reads of the Ledger fail, the
cache does not retain the previous snapshot: whatever it held, the
snapshot is replaced by the default-valued fallback object — count 0,
the fixed deployer account as owner, not paused, bounds 0 and 1000000 —
and no distinct stale flag exists. -/
theorem C6_failed_refresh_installs_fallback (cache : Option ContractInfo)
    (cid : String) :
    applyRefresh cache cid .failure .failure =
      some { contractId := cid, count := 0, owner := "0.0.6255971",
             isPaused := false, maxCount := 1000000, minCount := 0 } := rfl

/-- C7: on a successfully acknowledged submission the orchestrator
immediately applies the operation's delta to the cached count —
increment adds 1, decrement subtracts 1, incrementBy(n) adds n and
decrementBy(n) subtracts n for every amount the client-side validation
lets through — and a later successful reconciliation read replaces the
optimistic value with the Ledger's authoritative snapshot. -/
theorem C7_optimistic_update (c authoritative : ContractInfo) (n : Int)
    (cid : String) (hmin : MIN_INCREMENT_AMOUNT ≤ n)
    (_hmax : n ≤ MAX_INCREMENT_AMOUNT) :
    applyOptimistic "increment" none c = { c with count := c.count + 1 } ∧
    applyOptimistic "decrement" none c = { c with count := c.count - 1 } ∧
    applyOptimistic "incrementBy" (some n) c =
      { c with count := c.count + n } ∧
    applyOptimistic "decrementBy" (some n) c =
      { c with count := c.count - n } ∧
    resolveRefreshes (some (applyOptimistic "incrementBy" (some n) c)) cid
        [(.success authoritative, .failure)] = some authoritative := by
  have hn : n ≠ 0 := by
    simp [MIN_INCREMENT_AMOUNT] at hmin
    omega
  refine ⟨rfl, rfl, ?_, ?_, rfl⟩
  · simp [applyOptimistic, hn]
  · simp [applyOptimistic, hn]

/-- Witness for C7 at the spec's reconciliation example: cached count 10,
successful incrementBy 5 — the cached count is immediately 15. -/
theorem C7_optimistic_update_witness :
    applyOptimistic "incrementBy" (some 5)
        { contractId := "0.0.6285476", count := 10, owner := "0.0.6255971",
          isPaused := false, maxCount := 1000000, minCount := 0 } =
      { contractId := "0.0.6285476", count := 15, owner := "0.0.6255971",
        isPaused := false, maxCount := 1000000, minCount := 0 } :=
  (C7_optimistic_update
    { contractId := "0.0.6285476", count := 10, owner := "0.0.6255971",
      isPaused := false, maxCount := 1000000, minCount := 0 }
    { contractId := "0.0.6285476", count := 16, owner := "0.0.6255971",
      isPaused := false, maxCount := 1000000, minCount := 0 }
    5 "0.0.6285476" (by decide) (by decide)).2.2.1

/-- C8: the history operations preserve the bounded newest-first
invariant — adding keeps at most 50 records and newest-first order,
below capacity it evicts nothing, and at capacity it evicts exactly the
oldest (final) record; updating by id keeps the length, rewrites exactly
the records with the matching id, leaves every other record unchanged,
and preserves newest-first order whenever the merge keeps the
timestamp. -/
theorem C8_history_invariants (prev : List Transaction) (newTx : Transaction)
    (id : String) (merge : Transaction → Transaction)
    (hsorted : NewestFirst prev)
    (hfresh : ∀ t ∈ prev, t.timestamp ≤ newTx.timestamp)
    (hmerge : ∀ tx, (merge tx).timestamp = tx.timestamp) :
    (addTransaction prev newTx).length ≤ MAX_TRANSACTIONS_HISTORY ∧
    NewestFirst (addTransaction prev newTx) ∧
    (prev.length < MAX_TRANSACTIONS_HISTORY →
      addTransaction prev newTx = newTx :: prev) ∧
    (prev.length = MAX_TRANSACTIONS_HISTORY →
      addTransaction prev newTx = newTx :: prev.dropLast) ∧
    (updateTransaction prev id merge).length = prev.length ∧
    (∀ i : Nat, (updateTransaction prev id merge)[i]? =
      (prev[i]?).map fun tx => if tx.id = id then merge tx else tx) ∧
    NewestFirst (updateTransaction prev id merge) := by
  have hpair : (newTx :: prev).Pairwise
      (fun a b => b.timestamp ≤ a.timestamp) :=
    List.pairwise_cons.mpr ⟨hfresh, hsorted⟩
  have ht : ∀ tx, ((if tx.id = id then merge tx else tx) :
      Transaction).timestamp = tx.timestamp := by
    intro tx
    by_cases hx : tx.id = id <;> simp [hx, hmerge]
  refine ⟨?_, ?_, ?_, ?_, ?_, ?_, ?_⟩
  · simp only [addTransaction, List.length_take]
    omega
  · exact List.Pairwise.sublist (List.take_sublist _ _) hpair
  · intro hlen
    have h1 : (newTx :: prev).length ≤ MAX_TRANSACTIONS_HISTORY := by
      simp only [List.length_cons]
      omega
    simp only [addTransaction]
    exact List.take_of_length_le h1
  · intro hlen
    have h50 : MAX_TRANSACTIONS_HISTORY = 49 + 1 := rfl
    have hdl : prev.dropLast = prev.take 49 := by
      rw [List.dropLast_eq_take, hlen]
      rfl
    simp only [addTransaction]
    rw [h50, List.take_succ_cons, hdl]
  · simp [updateTransaction]
  · intro i
    simp [updateTransaction]
  · simp only [NewestFirst, updateTransaction]
    exact hsorted.map _ (fun a b hab => by rw [ht a, ht b]; exact hab)

/-- Witness for C8: adding one record to the empty history. -/
theorem C8_history_invariants_witness :
    addTransaction []
        { id := "tx_1", type := "increment", status := "pending",
          hash := none, timestamp := 100, amount := none, error := none } =
      [{ id := "tx_1", type := "increment", status := "pending",
         hash := none, timestamp := 100, amount := none, error := none }] :=
  ((C8_history_invariants []
      { id := "tx_1", type := "increment", status := "pending",
        hash := none, timestamp := 100, amount := none, error := none }
      "tx_1" (fun tx => tx) List.Pairwise.nil (by simp)
      (fun tx => rfl)).2.2.1) (by decide)

end Frontend
